import Mathlib

/-!
Verification of the release-copier core: the body transformer (`processBody`),
the asset downloader filter (`downloadAssets`), the batch ordering
(`listAllReleasesSorted`), and the copy orchestrator (`copyRelease`).

The definitions below are shallow embeddings of the TypeScript sources
(`copy-release.ts`, `download-service.ts`).  The JavaScript `RegExp`
collaborator is modelled by an executable engine covering the fragment with
literal characters, `.`, ordered alternation `|`, grouping `(...)`,
non-capturing-free groups, and the quantifiers `*`, `+`, `?` with their lazy
variants; patterns containing `[ ] \x7b \x7d \ ^ $` or a group modifier `(?`
are outside the modelled fragment (`modeledPattern` is `false` for them and
`compile` rejects them).  Within the fragment, `compile` succeeds exactly when
`new RegExp` does, matching uses the ECMAScript leftmost, first-alternative,
greedy backtracking order, and repetition of an empty iteration is cut off as
in the ECMAScript RepeatMatcher.
-/

/-- Abstract syntax of the modelled regular-expression fragment.
`star` carries a greediness flag (`true` = greedy, `false` = lazy). -/
inductive Regex where
  | eps : Regex
  | char : Char → Regex
  | any : Regex
  | cat : Regex → Regex → Regex
  | alt : Regex → Regex → Regex
  | star : Bool → Regex → Regex
deriving DecidableEq, Repr

/-- Size of a regex term, used to bound the matcher's recursion depth. -/
def Regex.size : Regex → Nat
  | .eps => 1
  | .char _ => 1
  | .any => 1
  | .cat r s => r.size + s.size + 1
  | .alt r s => r.size + s.size + 1
  | .star _ r => r.size + 1

/-- Backtracking matcher: the list of remainders of `l` after each accepting
run of `r` on a prefix of `l`, in ECMAScript backtracking order (first
alternative first, greedy repetition iterates before exiting, lazy repetition
exits first).  An iteration of a starred body that consumes nothing is
discarded, as in the ECMAScript RepeatMatcher.  The fuel argument only bounds
recursion depth; one unit is spent per call, and the entry point
`Regex.firstMatch` supplies `(size + 1) * (length + 2)` units, which exceeds
the maximal call depth (each repetition layer consumes at least one character
and at most `size` nested calls). -/
def Regex.paths : Nat → Regex → List Char → List (List Char)
  | 0, _, _ => []
  | Nat.succ fuel, r, l =>
    match r with
    | .eps => [l]
    | .char c =>
      match l with
      | [] => []
      | x :: xs => if x = c then [xs] else []
    | .any =>
      match l with
      | [] => []
      | _ :: xs => [xs]
    | .alt r1 r2 => Regex.paths fuel r1 l ++ Regex.paths fuel r2 l
    | .cat r1 r2 => (Regex.paths fuel r1 l).flatMap (fun l2 => Regex.paths fuel r2 l2)
    | .star g r1 =>
      let iter := ((Regex.paths fuel r1 l).filter (fun l2 => l2.length < l.length)).flatMap
        (fun l2 => Regex.paths fuel (.star g r1) l2)
      if g then iter ++ [l] else l :: iter

/-- Fuel supplied to the backtracking matcher; see `Regex.paths`. -/
def Regex.pathsFuel (r : Regex) (l : List Char) : Nat :=
  (r.size + 1) * (l.length + 2)

/-- Length of the match found by the engine when anchored at the start of `l`:
the number of characters consumed by the first accepting run in backtracking
order, or `none` when no run accepts. -/
def Regex.firstMatch (r : Regex) (l : List Char) : Option Nat :=
  (Regex.paths (r.pathsFuel l) r l).head?.map (fun rem => l.length - rem.length)

/-- Unanchored test, modelling the truthiness of `string.match(regex)`:
does some position of `s` start a match of `r`? -/
def Regex.test (r : Regex) (s : String) : Bool :=
  (List.range (s.data.length + 1)).any (fun i => (r.firstMatch (s.data.drop i)).isSome)

/-- Parser modes of the recursive-descent pattern parser: alternation,
sequence, quantified atom, atom. -/
inductive PMode where
  | alt : PMode
  | seq : PMode
  | atomq : PMode
  | atom : PMode

/-- Recursive-descent parser for the modelled pattern fragment, returning the
parsed regex and the unconsumed input.  Mirrors the ECMAScript grammar on the
fragment: alternation is lowest precedence, quantifiers (`*`, `+`, `?`, each
optionally followed by `?` for laziness) bind to the preceding atom, a
quantifier with nothing to repeat or an unbalanced group is a syntax error
(`none`), and the unmodelled metacharacters `[ ] \x7b \x7d \ ^ $` as well as
group modifiers `(?` are rejected.  The fuel decreases on every call; the
entry point `compile` supplies more than the maximal call depth. -/
def parseR : Nat → PMode → List Char → Option (Regex × List Char)
  | 0, _, _ => none
  | Nat.succ fuel, .alt, l => do
    let (r, rest) ← parseR fuel .seq l
    match rest with
    | '|' :: rest2 => do
      let (s, rest3) ← parseR fuel .alt rest2
      pure (.alt r s, rest3)
    | _ => pure (r, rest)
  | Nat.succ fuel, .seq, l =>
    match l with
    | [] => some (.eps, [])
    | ')' :: _ => some (.eps, l)
    | '|' :: _ => some (.eps, l)
    | _ => do
      let (r, rest) ← parseR fuel .atomq l
      let (s, rest2) ← parseR fuel .seq rest
      pure (.cat r s, rest2)
  | Nat.succ fuel, .atomq, l => do
    let (a, rest) ← parseR fuel .atom l
    match rest with
    | '*' :: rest2 =>
      match rest2 with
      | '?' :: rest3 => pure (.star false a, rest3)
      | _ => pure (.star true a, rest2)
    | '+' :: rest2 =>
      match rest2 with
      | '?' :: rest3 => pure (.cat a (.star false a), rest3)
      | _ => pure (.cat a (.star true a), rest2)
    | '?' :: rest2 =>
      match rest2 with
      | '?' :: rest3 => pure (.alt .eps a, rest3)
      | _ => pure (.alt a .eps, rest2)
    | _ => pure (a, rest)
  | Nat.succ fuel, .atom, l =>
    match l with
    | [] => none
    | '(' :: rest =>
      match rest with
      | '?' :: _ => none
      | _ => do
        let (r, rest2) ← parseR fuel .alt rest
        match rest2 with
        | ')' :: rest3 => pure (r, rest3)
        | _ => none
    | '.' :: rest => some (.any, rest)
    | c :: rest =>
      if c = ')' ∨ c = '|' ∨ c = '*' ∨ c = '+' ∨ c = '?' ∨
         c = '[' ∨ c = ']' ∨ c = '{' ∨ c = '}' ∨ c = '\\' ∨ c = '^' ∨ c = '$' then
        none
      else
        some (.char c, rest)

/-- Model of `new RegExp(pattern)`: parse the whole pattern, `none` on a
syntax error or a pattern outside the modelled fragment. -/
def compile (pattern : String) : Option Regex :=
  match parseR (4 * pattern.data.length + 8) .alt pattern.data with
  | some (r, []) => some r
  | _ => none

/-- Character allowed in the modelled pattern fragment. -/
def modeledChar (c : Char) : Bool :=
  !(c = '[' ∨ c = ']' ∨ c = '{' ∨ c = '}' ∨ c = '\\' ∨ c = '^' ∨ c = '$' : Bool)

/-- Rejects group modifiers: an occurrence of `(` immediately followed by `?`
is outside the modelled fragment. -/
def noGroupModifier : List Char → Bool
  | [] => true
  | '(' :: '?' :: _ => false
  | _ :: rest => noGroupModifier rest

/-- The pattern lies in the fragment on which `compile` is a faithful model of
`new RegExp`: no character classes, braces, escapes, anchors, and no group
modifiers.  On this fragment `compile` fails exactly when `new RegExp`
raises a syntax error. -/
def modeledPattern (pattern : String) : Bool :=
  pattern.data.all modeledChar && noGroupModifier pattern.data

/-! ## Body transformer (`processBody` in `copy-release.ts`)

`String.prototype.replace` with the `g` flag is modelled by a left-to-right
scan: at each position the engine looks for a match anchored there; a
non-empty match is removed and replaced, an empty match inserts the
replacement and the scanner advances one character (as ECMAScript does when
`lastIndex` does not move), and a position with no match keeps its character.
A final empty match at the end of the input is also replaced. -/

/-- One chunk of the global-replace scan: a stretch of text kept verbatim, or
the text of one match (replaced in the output). -/
inductive RChunk where
  | kept : List Char → RChunk
  | matched : List Char → RChunk
deriving DecidableEq, Repr

/-- The source text covered by a chunk. -/
def RChunk.payload : RChunk → List Char
  | .kept s => s
  | .matched m => m

/-- The text a chunk contributes to the output when every match is replaced
with the empty string. -/
def RChunk.keptPart : RChunk → List Char
  | .kept s => s
  | .matched _ => []

/-- Global-replace scanner with explicit fuel (one unit per character
consumed; the entry point `gchunks` supplies `length + 1`, which always
suffices because every step consumes at least one character or ends the
scan). -/
def gchunksF (r : Regex) : Nat → List Char → List RChunk
  | 0, _ => []
  | Nat.succ fuel, l =>
    match l with
    | [] =>
      match r.firstMatch [] with
      | some _ => [.matched []]
      | none => []
    | x :: xs =>
      match r.firstMatch (x :: xs) with
      | none => .kept [x] :: gchunksF r fuel xs
      | some 0 => .matched [] :: .kept [x] :: gchunksF r fuel xs
      | some (n + 1) =>
        .matched ((x :: xs).take (n + 1)) :: gchunksF r fuel ((x :: xs).drop (n + 1))

/-- Decomposition of `l` into kept stretches and non-overlapping leftmost
matches of `r`, in ECMAScript global-replace order. -/
def gchunks (r : Regex) (l : List Char) : List RChunk :=
  gchunksF r (l.length + 1) l

/-- Model of `body.replace(new RegExp(pattern, flagG), repl)`: every chunk of
the scan is emitted, matches replaced by `repl`.  Replacement-string `$`
escapes are not modelled (no claim exercises them). -/
def jsReplace (r : Regex) (repl : String) (body : String) : String :=
  ⟨(gchunks r body.data).flatMap (fun c =>
    match c with
    | .kept s => s
    | .matched _ => repl.data)⟩

/-- Model of `processBody` from `copy-release.ts`: no transformation when the
pattern is unset or empty (JavaScript falsiness of `regex`); a missing or
empty replacement becomes the empty string (deleting matches); a pattern the
engine rejects returns the body unchanged (the `catch` branch). -/
def processBody (body : String) (regex : Option String) (replacement : Option String) : String :=
  match regex with
  | none => body
  | some re =>
    if re = "" then body
    else
      match compile re with
      | none => body
      | some r => jsReplace r (replacement.getD "") body

/-! ## Release downloader (`downloadAssets` in `download-service.ts`)

The remote calls (release lookup, asset listing, name resolution, streaming)
are collaborators; the embedded function takes their results as inputs: the
ordered asset list with each asset's resolved display name (the code's
`assetResponse?.name || ''` normalises a missing name to the empty string)
and the optional release body.  The file-system writes carry no decision
logic and are not modelled. -/

/-- A source asset after name resolution: `name = ""` models a missing or
empty display name. -/
structure SourceAsset where
  id : Nat
  name : String
deriving DecidableEq, Repr

/-- The `Release` transfer value: body text plus ordered included asset
names. -/
structure Release where
  body : String
  assets : List String
deriving DecidableEq, Repr

/-- One pattern's test against an asset name: `fileName.match(new
RegExp(filter))` inside a `try`, where a pattern that fails to compile is
caught and counts as non-matching (`return false`). -/
def patternTest (pattern : String) (name : String) : Bool :=
  match compile pattern with
  | none => false
  | some r => r.test name

/-- The filter guard of the download loop: `assetFilter && fileName &&
!assetFilter.some(...)` — ignore the asset iff a filter is set, the name is
truthy, and no pattern matches. -/
def ignoreByFilter (assetFilter : Option (List String)) (name : String) : Bool :=
  match assetFilter with
  | none => false
  | some fs => name != "" && !(fs.any (fun p => patternTest p name))

/-- Names pushed onto `includedAssets` by the download loop, in source
order: an asset is dropped when the filter guard fires, then when its name is
empty (`if (!fileName) ... continue`). -/
def includedNames (assetFilter : Option (List String)) : List SourceAsset → List String
  | [] => []
  | a :: rest =>
    if ignoreByFilter assetFilter a.name then includedNames assetFilter rest
    else if a.name = "" then includedNames assetFilter rest
    else a.name :: includedNames assetFilter rest

/-- Model of `downloadAssets`: the returned `Release` has the source body
normalised to `""` when absent (`release.data.body ?? ""`) and the ordered
list of included, successfully named assets. -/
def downloadAssets (assetFilter : Option (List String)) (assets : List SourceAsset)
    (body : Option String) : Release :=
  { body := body.getD "", assets := includedNames assetFilter assets }

/-- Derived inclusion predicate: an asset's name survives both guards of the
download loop. -/
def includeAsset (assetFilter : Option (List String)) (name : String) : Bool :=
  !(ignoreByFilter assetFilter name) && name != ""

/-! ## Batch ordering (`listAllReleases` in `copy-release.ts`)

The paginated fetch is a collaborator; the embedded function sorts the
fetched release records.  `semver.coerce` is modelled on its documented
behaviour: find the first digit run (the major), optionally followed by
`.minor` and `.patch` digit runs; a tag with no digits does not coerce;
pre-release parts are dropped by coercion, so comparison is lexicographic on
(major, minor, patch).  The 16-digit cap on components is not modelled.
JavaScript's `Array.prototype.sort` is stable and is modelled by
`List.insertionSort`. -/

/-- Numeric value of a digit run. -/
def natOfDigits (l : List Char) : Nat :=
  l.foldl (fun n c => n * 10 + (c.toNat - 48)) 0

/-- Scan for the first digit run and parse up to three dot-separated runs,
as `semver.coerce` does. -/
def coerceFrom : List Char → Option (Nat × Nat × Nat)
  | [] => none
  | c :: rest =>
    if c.isDigit then
      match (c :: rest).span Char.isDigit with
      | (run1, rest1) =>
        let major := natOfDigits run1
        match rest1 with
        | '.' :: r2 =>
          match r2.span Char.isDigit with
          | ([], _) => some (major, 0, 0)
          | (run2, rest2) =>
            let minor := natOfDigits run2
            match rest2 with
            | '.' :: r3 =>
              match r3.span Char.isDigit with
              | ([], _) => some (major, minor, 0)
              | (run3, _) => some (major, minor, natOfDigits run3)
            | _ => some (major, minor, 0)
        | _ => some (major, 0, 0)
    else
      coerceFrom rest

/-- Model of `semver.valid(semver.coerce(tag))` as the coerced
(major, minor, patch) triple, `none` when the tag does not coerce. -/
def coerce (tag : String) : Option (Nat × Nat × Nat) :=
  coerceFrom tag.data

/-- A fetched release record: tag plus creation timestamp (epoch-style
number standing for `new Date(created_at).getTime()`). -/
structure ReleaseInfo where
  tag_name : String
  created_at : Nat
deriving DecidableEq, Repr

/-- Ascending lexicographic order on coerced version triples — the order
induced by `semver.compare` on coerced versions (which carry no pre-release
part). -/
def tripleLe (a b : Nat × Nat × Nat) : Prop :=
  a.1 < b.1 ∨ (a.1 = b.1 ∧ (a.2.1 < b.2.1 ∨ (a.2.1 = b.2.1 ∧ a.2.2 ≤ b.2.2)))

instance : DecidableRel tripleLe := fun a b => by
  unfold tripleLe; exact inferInstance

/-- Sort key of a release record under semantic-version order. -/
def semverKey (x : ReleaseInfo) : Nat × Nat × Nat :=
  (coerce x.tag_name).getD (0, 0, 0)

/-- Comparator of the valid-semver sort (`semver.compare` ascending). -/
def semverRel (a b : ReleaseInfo) : Prop :=
  tripleLe (semverKey a) (semverKey b)

instance : DecidableRel semverRel := fun a b => by
  unfold semverRel; exact inferInstance

/-- Comparator of the creation-date sort (`getTime()` difference
ascending). -/
def dateRel (a b : ReleaseInfo) : Prop :=
  a.created_at ≤ b.created_at

instance : DecidableRel dateRel := fun a b => by
  unfold dateRel; exact inferInstance

instance : IsTotal ReleaseInfo semverRel :=
  ⟨by intro a b; unfold semverRel tripleLe; omega⟩

instance : IsTrans ReleaseInfo semverRel :=
  ⟨by intro a b c hab hbc; unfold semverRel tripleLe at *; omega⟩

instance : IsTotal ReleaseInfo dateRel :=
  ⟨fun a b => Nat.le_total a.created_at b.created_at⟩

instance : IsTrans ReleaseInfo dateRel :=
  ⟨fun _ _ _ hab hbc => Nat.le_trans hab hbc⟩

/-- The sorting core of `listAllReleases` (the paginated fetch result is the
input).  Semantic-version mode partitions records into those whose tag
coerces and those whose tag does not, sorts the first group by coerced
version, the second by creation date, and appends the second after the
first; date mode sorts everything by creation date. -/
def listAllReleasesSorted (releases : List ReleaseInfo) (sortBySemver : Bool) : List String :=
  if sortBySemver then
    let valid := releases.filter (fun x => (coerce x.tag_name).isSome)
    let invalid := releases.filter (fun x => (coerce x.tag_name).isNone)
    (List.insertionSort semverRel valid).map (fun x => x.tag_name)
      ++ (List.insertionSort dateRel invalid).map (fun x => x.tag_name)
  else
    (List.insertionSort dateRel releases).map (fun x => x.tag_name)

/-! ## Copy orchestrator (`copyRelease` in `copy-release.ts`)

The remote side is an oracle `Env` of canned collaborator results: the
paginated release listing, the destination `getReleaseByTag` used by the
existence check, and the download/upload steps of one single-release copy
(each a remote unit of work that either succeeds or raises an error carrying
a numeric status).  The orchestrator is deterministic given the oracle; its
run is the ordered list of collaborator calls it makes (the trace) together
with the error it propagates, if any.  The temp-directory bookkeeping of
`copySingleRelease` carries no decision logic and is not modelled. -/

/-- An error raised by the hosting-API collaborator: numeric status
classification plus message. -/
structure GhError where
  status : Nat
  message : String
deriving DecidableEq, Repr

/-- One collaborator call (or skip decision) made by the orchestrator, in
order.  `uploadCalled` records the `Release` value handed to the uploader. -/
inductive Event where
  | listedReleases : Event
  | checkedDest : String → Event
  | skipped : String → Event
  | downloadCalled : String → Event
  | uploadCalled : String → Release → Event
deriving DecidableEq, Repr

/-- The tag a trace event refers to, if any. -/
def Event.tagOf : Event → Option String
  | .listedReleases => none
  | .checkedDest t => some t
  | .skipped t => some t
  | .downloadCalled t => some t
  | .uploadCalled t _ => some t

/-- Is the event a download call? -/
def Event.isDownload : Event → Bool
  | .downloadCalled _ => true
  | _ => false

/-- Is the event an upload call? -/
def Event.isUpload : Event → Bool
  | .uploadCalled _ _ => true
  | _ => false

/-- Canned collaborator results: what each remote call would return. -/
structure Env where
  listReleasesResult : Except GhError (List ReleaseInfo)
  destGetReleaseByTag : String → Except GhError Unit
  download : String → Except GhError Release
  upload : String → Release → Except GhError Unit

/-- `CopyReleaseConfig` from `copy-release.ts`; optional fields are `Option`,
mirroring `?:` (with `none` for `undefined`). -/
structure CopyReleaseConfig where
  sourceApiKey : String
  sourceOwner : String
  sourceRepo : String
  destApiKey : String
  destOwner : String
  destRepo : String
  tempDir : String
  releaseTag : Option String
  copyAllReleases : Option Bool
  sortBySemver : Option Bool
  includeAssets : Option (List String)
  bodyReplaceRegex : Option String
  bodyReplaceWith : Option String
deriving DecidableEq, Repr

/-- JavaScript truthiness of `config.releaseTag` (unset or empty string is
falsy). -/
def tagTruthy (config : CopyReleaseConfig) : Bool :=
  config.releaseTag.getD "" != ""

/-- JavaScript truthiness of `config.copyAllReleases`. -/
def copyAllTruthy (config : CopyReleaseConfig) : Bool :=
  config.copyAllReleases.getD false

/-- `config.sortBySemver !== false` — semantic-version order is the
default. -/
def sortFlag (config : CopyReleaseConfig) : Bool :=
  config.sortBySemver != some false

/-- Model of `releaseExists`: destination `getReleaseByTag` succeeding means
`true`; failing with status 404 means `false`; any other failure is
re-thrown. -/
def releaseExists (env : Env) (tag : String) : Except GhError Bool :=
  match env.destGetReleaseByTag tag with
  | .ok _ => .ok true
  | .error e => if e.status = 404 then .ok false else .error e

/-- The body-transform step of `copySingleRelease`: `processBody` is invoked
only when `config.bodyReplaceRegex?.length` is truthy, i.e. the pattern is
set and non-empty. -/
def applyBodyTransform (config : CopyReleaseConfig) (release : Release) : Release :=
  if 0 < (config.bodyReplaceRegex.getD "").length then
    { release with
        body := processBody release.body config.bodyReplaceRegex config.bodyReplaceWith }
  else release

/-- Model of `copySingleRelease`: download, optional body transform, upload.
Returns the trace of collaborator calls and the error, if one aborted the
copy. -/
def copySingleRelease (env : Env) (config : CopyReleaseConfig) (releaseTag : String) :
    List Event × Option GhError :=
  match env.download releaseTag with
  | .error e => ([.downloadCalled releaseTag], some e)
  | .ok release =>
    let toUpload := applyBodyTransform config release
    match env.upload releaseTag toUpload with
    | .error e => ([.downloadCalled releaseTag, .uploadCalled releaseTag toUpload], some e)
    | .ok _ => ([.downloadCalled releaseTag, .uploadCalled releaseTag toUpload], none)

/-- The per-tag loop of batch mode: for each tag in order, check existence at
the destination; skip when it exists, copy when the check reports not-found,
and abort the whole loop when the check raises any other error or a copy
fails. -/
def processTags (env : Env) (config : CopyReleaseConfig) :
    List String → List Event × Option GhError
  | [] => ([], none)
  | t :: ts =>
    match releaseExists env t with
    | .error e => ([.checkedDest t], some e)
    | .ok true =>
      let rest := processTags env config ts
      (.checkedDest t :: .skipped t :: rest.1, rest.2)
    | .ok false =>
      let one := copySingleRelease env config t
      match one.2 with
      | some e => (.checkedDest t :: one.1, some e)
      | none =>
        let rest := processTags env config ts
        (.checkedDest t :: one.1 ++ rest.1, rest.2)

/-- An error propagated by `copyRelease`: the configuration validation
errors, or a collaborator error passed through. -/
inductive CopyError where
  | config : String → CopyError
  | api : GhError → CopyError
deriving DecidableEq, Repr

/-- Model of the exported `copyRelease`: validate the mode selection first
(both set, or neither set, is a configuration error thrown before any
collaborator call), then either run the batch loop over the sorted source
tags or copy the single requested tag. -/
def copyRelease (env : Env) (config : CopyReleaseConfig) : List Event × Option CopyError :=
  if copyAllTruthy config && tagTruthy config then
    ([], some (.config "Cannot specify both copyAllReleases and releaseTag. Choose one or the other."))
  else if !copyAllTruthy config && !tagTruthy config then
    ([], some (.config "Must specify either copyAllReleases or releaseTag."))
  else if copyAllTruthy config then
    match env.listReleasesResult with
    | .error e => ([.listedReleases], some (.api e))
    | .ok rs =>
      let run := processTags env config (listAllReleasesSorted rs (sortFlag config))
      (.listedReleases :: run.1, run.2.map .api)
  else
    let run := copySingleRelease env config (config.releaseTag.getD "")
    (run.1, run.2.map .api)

/-! ## Concrete oracles and configurations used by witnesses and examples -/

/-- A configuration with every optional field unset. -/
def baseConfig : CopyReleaseConfig :=
  { sourceApiKey := "sk", sourceOwner := "so", sourceRepo := "sr"
    destApiKey := "dk", destOwner := "dow", destRepo := "dr"
    tempDir := "/tmp/work"
    releaseTag := none, copyAllReleases := none, sortBySemver := none
    includeAssets := none, bodyReplaceRegex := none, bodyReplaceWith := none }

/-- Oracle for the skip-existing example: the destination already has
`v1.0.0`, the source lists `v1.0.0`, `v2.0.0`, `v3.0.0`, and every copy step
succeeds. -/
def envSkip : Env :=
  { listReleasesResult := .ok [⟨"v1.0.0", 1⟩, ⟨"v2.0.0", 2⟩, ⟨"v3.0.0", 3⟩]
    destGetReleaseByTag := fun t => if t = "v1.0.0" then .ok () else .error ⟨404, "Not Found"⟩
    download := fun t => .ok ⟨"notes for " ++ t, ["asset1.zip"]⟩
    upload := fun _ _ => .ok () }

/-- Oracle for the abort example: the existence check for `bad` fails with a
non-404 status, every other tag reports not-found, and copy steps succeed. -/
def envAbort : Env :=
  { listReleasesResult := .ok [⟨"good", 1⟩, ⟨"bad", 2⟩, ⟨"after", 3⟩]
    destGetReleaseByTag := fun t =>
      if t = "bad" then .error ⟨403, "rate limit exceeded"⟩ else .error ⟨404, "Not Found"⟩
    download := fun _ => .ok ⟨"n", []⟩
    upload := fun _ _ => .ok () }

/-- Oracle where every remote call succeeds and the destination has no
releases. -/
def envPlain : Env :=
  { listReleasesResult := .ok []
    destGetReleaseByTag := fun _ => .error ⟨404, "Not Found"⟩
    download := fun _ => .ok ⟨"body text", ["a.zip"]⟩
    upload := fun _ _ => .ok () }

/-- Soundness of a chunk decomposition with respect to the engine: each match
chunk is exactly the match the engine finds at its position in the
reconstructed text, and no kept position starts a non-empty match. -/
def chunksSound (r : Regex) : List RChunk → Prop
  | [] => True
  | .kept s :: cs =>
    (r.firstMatch (s ++ cs.flatMap RChunk.payload) = none ∨
     r.firstMatch (s ++ cs.flatMap RChunk.payload) = some 0) ∧ chunksSound r cs
  | .matched m :: cs =>
    r.firstMatch (m ++ cs.flatMap RChunk.payload) = some m.length ∧ chunksSound r cs

/-! ## Helper lemmas -/

theorem firstMatch_le {r : Regex} {l : List Char} {k : Nat}
    (h : r.firstMatch l = some k) : k ≤ l.length := by
  unfold Regex.firstMatch at h
  cases hh : (Regex.paths (r.pathsFuel l) r l).head? with
  | none => rw [hh] at h; simp at h
  | some rem =>
    rw [hh] at h
    simp only [Option.map_some', Option.some.injEq] at h
    omega

theorem firstMatch_nil {r : Regex} {k : Nat} (h : r.firstMatch [] = some k) : k = 0 := by
  have := firstMatch_le h
  simpa using this

theorem gchunksF_payload (r : Regex) :
    ∀ (fuel : Nat) (l : List Char), l.length < fuel →
      (gchunksF r fuel l).flatMap RChunk.payload = l := by
  intro fuel
  induction fuel with
  | zero => intro l h; omega
  | succ fuel ih =>
    intro l h
    match l with
    | [] =>
      cases hm : r.firstMatch [] with
      | none => simp [gchunksF, hm]
      | some k => simp [gchunksF, hm, RChunk.payload]
    | x :: xs =>
      have hxs : xs.length < fuel := by simp at h; omega
      cases hm : r.firstMatch (x :: xs) with
      | none => simp [gchunksF, hm, RChunk.payload, ih xs hxs]
      | some n =>
        cases n with
        | zero => simp [gchunksF, hm, RChunk.payload, ih xs hxs]
        | succ m =>
          have hd : (List.drop m xs).length < fuel := by
            simp [List.length_drop]; omega
          simp [gchunksF, hm, RChunk.payload, ih _ hd, List.take_append_drop]

theorem gchunksF_sound (r : Regex) :
    ∀ (fuel : Nat) (l : List Char), l.length < fuel →
      chunksSound r (gchunksF r fuel l) := by
  intro fuel
  induction fuel with
  | zero => intro l h; omega
  | succ fuel ih =>
    intro l h
    match l with
    | [] =>
      cases hm : r.firstMatch [] with
      | none => simp [gchunksF, hm, chunksSound]
      | some k =>
        have hk := firstMatch_nil hm
        subst hk
        simp [gchunksF, hm, chunksSound, RChunk.payload]
    | x :: xs =>
      have hxs : xs.length < fuel := by simp at h; omega
      have hpay := gchunksF_payload r fuel xs hxs
      cases hm : r.firstMatch (x :: xs) with
      | none =>
        simp [gchunksF, hm, chunksSound, RChunk.payload, hpay, ih xs hxs]
      | some n =>
        cases n with
        | zero =>
          simp [gchunksF, hm, chunksSound, RChunk.payload, hpay, ih xs hxs]
        | succ m =>
          have hle := firstMatch_le hm
          have hd : (List.drop m xs).length < fuel := by
            simp [List.length_drop]; omega
          have hpay2 := gchunksF_payload r fuel (List.drop m xs) hd
          simp only [gchunksF, hm, List.take_succ_cons, List.drop_succ_cons, chunksSound]
          refine ⟨?_, ih (List.drop m xs) hd⟩
          rw [hpay2]
          rw [show (x :: List.take m xs) ++ List.drop m xs = x :: xs by
            simp [List.take_append_drop]]
          rw [hm]
          simp at hle
          simp [List.length_take]
          omega

theorem paths_eps (n : Nat) (l : List Char) (h : 0 < n) : Regex.paths n .eps l = [l] := by
  match n, h with
  | Nat.succ m, _ => rfl

theorem firstMatch_eps (l : List Char) : Regex.eps.firstMatch l = some 0 := by
  unfold Regex.firstMatch
  rw [paths_eps _ l (by unfold Regex.pathsFuel Regex.size; positivity)]
  simp

theorem gchunksF_eps_kept :
    ∀ (fuel : Nat) (l : List Char), l.length < fuel →
      (gchunksF .eps fuel l).flatMap RChunk.keptPart = l := by
  intro fuel
  induction fuel with
  | zero => intro l h; omega
  | succ fuel ih =>
    intro l h
    match l with
    | [] => simp [gchunksF, firstMatch_eps, RChunk.keptPart]
    | x :: xs =>
      have hxs : xs.length < fuel := by simp at h; omega
      simp [gchunksF, firstMatch_eps, RChunk.keptPart, ih xs hxs]

theorem compile_empty : compile "" = some .eps := by decide

/-! ## Claims -/

/-- C1: with the pattern set and the replacement unset, `processBody` deletes
every non-overlapping leftmost match of the pattern from the body and keeps
all surrounding text unchanged: the output is exactly the kept part of the
global-replace chunk decomposition, that decomposition reconstructs the body
verbatim, and it is sound (each deleted chunk is precisely the match the
engine finds at its position, and no kept position starts a non-empty
match).  In particular
`transform("Before replace-this after", "replace-this", undefined)`
is `"Before  after"`. -/
theorem C1_delete_on_missing_replacement :
    (∀ (body pat : String) (r : Regex), compile pat = some r →
      (processBody body (some pat) none).data
          = (gchunks r body.data).flatMap RChunk.keptPart ∧
      (gchunks r body.data).flatMap RChunk.payload = body.data ∧
      chunksSound r (gchunks r body.data)) ∧
    processBody "Before replace-this after" (some "replace-this") none = "Before  after" := by
  constructor
  · intro body pat r h
    refine ⟨?_, gchunksF_payload r (body.data.length + 1) body.data (by omega),
      gchunksF_sound r (body.data.length + 1) body.data (by omega)⟩
    by_cases hp : pat = ""
    · subst hp
      rw [compile_empty] at h
      have hr : r = .eps := by
        cases h; rfl
      subst hr
      simp [processBody]
      exact (gchunksF_eps_kept (body.data.length + 1) body.data (by omega)).symm
    · simp only [processBody, hp, if_neg, h]
      rfl
  · decide

/-- C1 witness: the deletion theorem applied at the concrete body `"xay"`
and pattern `"a"`. -/
theorem C1_delete_on_missing_replacement_witness :
    (processBody "xay" (some "a") none).data
        = (gchunks (.cat (.char 'a') .eps) "xay".data).flatMap RChunk.keptPart ∧
    (gchunks (.cat (.char 'a') .eps) "xay".data).flatMap RChunk.payload = "xay".data ∧
    chunksSound (.cat (.char 'a') .eps) (gchunks (.cat (.char 'a') .eps) "xay".data) :=
  C1_delete_on_missing_replacement.1 "xay" "a" (.cat (.char 'a') .eps) (by decide)

/-- C2: in batch mode with semantic-version ordering, the processing order is
the coercible tags sorted ascending by coerced-version comparison, followed
by all non-coercible tags sorted ascending by creation timestamp, the whole
non-coercing group after every coercing tag regardless of timestamps; for
source tags `v1.10.0`, `v1.0.0`, `v2.0.0` (with timestamps chosen against
version order) the order is `v1.0.0`, `v1.10.0`, `v2.0.0`. -/
theorem C2_semver_batch_order :
    (∀ (releases : List ReleaseInfo),
      ∃ v i : List ReleaseInfo,
        listAllReleasesSorted releases true
            = v.map (fun x => x.tag_name) ++ i.map (fun x => x.tag_name) ∧
        List.Perm v (releases.filter (fun x => (coerce x.tag_name).isSome)) ∧
        List.Perm i (releases.filter (fun x => (coerce x.tag_name).isNone)) ∧
        List.Pairwise semverRel v ∧
        List.Pairwise dateRel i) ∧
    listAllReleasesSorted [⟨"v1.10.0", 5⟩, ⟨"v1.0.0", 9⟩, ⟨"v2.0.0", 1⟩] true
        = ["v1.0.0", "v1.10.0", "v2.0.0"] := by
  constructor
  · intro releases
    refine ⟨List.insertionSort semverRel
        (releases.filter (fun x => (coerce x.tag_name).isSome)),
      List.insertionSort dateRel
        (releases.filter (fun x => (coerce x.tag_name).isNone)),
      ?_, List.perm_insertionSort _ _, List.perm_insertionSort _ _,
      List.sorted_insertionSort _ _, List.sorted_insertionSort _ _⟩
    simp [listAllReleasesSorted]
  · decide

theorem copySingleRelease_tags (env : Env) (config : CopyReleaseConfig) (t : String) :
    ∀ ev ∈ (copySingleRelease env config t).1, ev.tagOf = some t := by
  intro ev hev
  cases hd : env.download t with
  | error e =>
    simp [copySingleRelease, hd] at hev
    subst hev; rfl
  | ok release =>
    cases hu : env.upload t (applyBodyTransform config release) with
    | error e =>
      simp [copySingleRelease, hd, hu] at hev
      rcases hev with h1 | h1 <;> subst h1 <;> rfl
    | ok u =>
      simp [copySingleRelease, hd, hu] at hev
      rcases hev with h1 | h1 <;> subst h1 <;> rfl

theorem processTags_tags (env : Env) (config : CopyReleaseConfig) :
    ∀ (ts : List String), ∀ ev ∈ (processTags env config ts).1,
      ∀ u, ev.tagOf = some u → u ∈ ts := by
  intro ts
  induction ts with
  | nil => simp [processTags]
  | cons t ts ih =>
    intro ev hev u htag
    cases hre : releaseExists env t with
    | error e =>
      simp [processTags, hre] at hev
      subst hev
      simp [Event.tagOf] at htag
      simp [htag]
    | ok b =>
      cases b with
      | true =>
        simp [processTags, hre] at hev
        rcases hev with h1 | h1 | h1
        · subst h1; simp [Event.tagOf] at htag; simp [htag]
        · subst h1; simp [Event.tagOf] at htag; simp [htag]
        · exact List.mem_cons_of_mem _ (ih ev h1 u htag)
      | false =>
        cases ho : (copySingleRelease env config t).2 with
        | some e =>
          simp [processTags, hre, ho] at hev
          rcases hev with h1 | h1
          · subst h1; simp [Event.tagOf] at htag; simp [htag]
          · have := copySingleRelease_tags env config t ev h1
            rw [this] at htag
            simp at htag
            simp [htag]
        | none =>
          simp [processTags, hre, ho] at hev
          rcases hev with h1 | h1 | h1
          · subst h1; simp [Event.tagOf] at htag; simp [htag]
          · have := copySingleRelease_tags env config t ev h1
            rw [this] at htag
            simp at htag
            simp [htag]
          · exact List.mem_cons_of_mem _ (ih ev h1 u htag)

theorem processTags_append_ok (env : Env) (config : CopyReleaseConfig) :
    ∀ (ts1 ts2 : List String) (evs1 : List Event),
      processTags env config ts1 = (evs1, none) →
      processTags env config (ts1 ++ ts2)
          = (evs1 ++ (processTags env config ts2).1, (processTags env config ts2).2) := by
  intro ts1
  induction ts1 with
  | nil =>
    intro ts2 evs1 h
    simp [processTags] at h
    subst h
    simp
  | cons t ts ih =>
    intro ts2 evs1 h
    rw [List.cons_append]
    cases hre : releaseExists env t with
    | error e =>
      simp [processTags, hre] at h
    | ok b =>
      cases b with
      | true =>
        simp only [processTags, hre, Prod.mk.injEq] at h
        obtain ⟨h1, h2⟩ := h
        have hts : processTags env config ts = ((processTags env config ts).1, none) := by
          rw [← h2]
        simp only [processTags, hre]
        rw [ih ts2 ((processTags env config ts).1) hts]
        rw [← h1]
        simp
      | false =>
        cases ho : (copySingleRelease env config t).2 with
        | some e =>
          simp [processTags, hre, ho] at h
        | none =>
          simp only [processTags, hre, ho, Prod.mk.injEq] at h
          obtain ⟨h1, h2⟩ := h
          have hts : processTags env config ts = ((processTags env config ts).1, none) := by
            rw [← h2]
          simp only [processTags, hre, ho]
          rw [ih ts2 ((processTags env config ts).1) hts]
          rw [← h1]
          simp

/-- C3: in batch mode, when the destination existence check for a tag fails
with a status other than 404, the whole batch aborts: the loop's result is
exactly the successful prefix trace plus that one check, the error propagates
with status and message preserved, every trace event refers only to the tags
up to and including the failing one (no later tag is checked, downloaded, or
uploaded), and the full orchestrator propagates the same error wrapped as an
API error. -/
theorem C3_non404_check_aborts_batch :
    ∀ (env : Env) (config : CopyReleaseConfig) (ts1 : List String) (t : String)
      (ts2 : List String) (e : GhError) (evs1 : List Event),
      processTags env config ts1 = (evs1, none) →
      env.destGetReleaseByTag t = .error e →
      e.status ≠ 404 →
      processTags env config (ts1 ++ t :: ts2) = (evs1 ++ [.checkedDest t], some e) ∧
      (∀ ev ∈ evs1 ++ [Event.checkedDest t], ∀ u, ev.tagOf = some u → u ∈ ts1 ++ [t]) ∧
      (∀ rs, copyAllTruthy config = true → tagTruthy config = false →
        env.listReleasesResult = .ok rs →
        listAllReleasesSorted rs (sortFlag config) = ts1 ++ t :: ts2 →
        copyRelease env config
            = (.listedReleases :: (evs1 ++ [.checkedDest t]), some (.api e))) := by
  intro env config ts1 t ts2 e evs1 h1 he hst
  have hre : releaseExists env t = .error e := by
    simp [releaseExists, he, hst]
  have hthead : processTags env config (t :: ts2) = ([.checkedDest t], some e) := by
    simp [processTags, hre]
  have hmain : processTags env config (ts1 ++ t :: ts2) = (evs1 ++ [.checkedDest t], some e) := by
    rw [processTags_append_ok env config ts1 (t :: ts2) evs1 h1, hthead]
  refine ⟨hmain, ?_, ?_⟩
  · intro ev hev u htag
    rcases List.mem_append.mp hev with hl | hr
    · have := processTags_tags env config ts1 ev (by rw [h1]; exact hl) u htag
      exact List.mem_append.mpr (Or.inl this)
    · simp at hr
      subst hr
      simp [Event.tagOf] at htag
      simp [htag]
  · intro rs hca htag hlist hsorted
    simp [copyRelease, hca, htag, hlist, hsorted, hmain]

/-- C3 witness: the abort theorem applied to the concrete oracle `envAbort`,
whose check for `bad` fails with status 403 after `good` copied
successfully. -/
theorem C3_non404_check_aborts_batch_witness :
    processTags envAbort { baseConfig with copyAllReleases := some true, sortBySemver := some false }
        (["good"] ++ "bad" :: ["after"])
        = ([.checkedDest "good", .downloadCalled "good", .uploadCalled "good" ⟨"n", []⟩]
            ++ [.checkedDest "bad"], some ⟨403, "rate limit exceeded"⟩) ∧
    (∀ ev ∈ [Event.checkedDest "good", Event.downloadCalled "good",
        Event.uploadCalled "good" ⟨"n", []⟩] ++ [Event.checkedDest "bad"],
      ∀ u, ev.tagOf = some u → u ∈ ["good"] ++ ["bad"]) ∧
    (∀ rs, copyAllTruthy { baseConfig with copyAllReleases := some true, sortBySemver := some false } = true →
      tagTruthy { baseConfig with copyAllReleases := some true, sortBySemver := some false } = false →
      envAbort.listReleasesResult = .ok rs →
      listAllReleasesSorted rs (sortFlag { baseConfig with copyAllReleases := some true, sortBySemver := some false })
          = ["good"] ++ "bad" :: ["after"] →
      copyRelease envAbort { baseConfig with copyAllReleases := some true, sortBySemver := some false }
          = (.listedReleases :: ([.checkedDest "good", .downloadCalled "good",
              .uploadCalled "good" ⟨"n", []⟩] ++ [.checkedDest "bad"]),
             some (.api ⟨403, "rate limit exceeded"⟩))) :=
  C3_non404_check_aborts_batch envAbort
    { baseConfig with copyAllReleases := some true, sortBySemver := some false }
    ["good"] "bad" ["after"] ⟨403, "rate limit exceeded"⟩
    [.checkedDest "good", .downloadCalled "good", .uploadCalled "good" ⟨"n", []⟩]
    (by decide) (by rfl) (by decide)

/-- C4: in batch mode, a tag whose destination existence check succeeds is
skipped — its trace is exactly the check plus the skip, with no download or
upload call, and processing continues with the remaining tags; a tag whose
check fails with 404 is copied.  In the concrete skip example (destination
already holds `v1.0.0`, source holds `v1.0.0`, `v2.0.0`, `v3.0.0`), exactly
`v2.0.0` and `v3.0.0` are downloaded and uploaded and the batch succeeds. -/
theorem C4_skip_existing :
    (∀ (env : Env) (config : CopyReleaseConfig) (t : String) (ts : List String),
      env.destGetReleaseByTag t = .ok () →
      processTags env config (t :: ts)
          = (.checkedDest t :: .skipped t :: (processTags env config ts).1,
             (processTags env config ts).2)) ∧
    (∀ (env : Env) (config : CopyReleaseConfig) (t : String) (ts : List String) (e : GhError),
      env.destGetReleaseByTag t = .error e → e.status = 404 →
      (copySingleRelease env config t).2 = none →
      processTags env config (t :: ts)
          = (.checkedDest t :: (copySingleRelease env config t).1
              ++ (processTags env config ts).1,
             (processTags env config ts).2)) ∧
    ((copyRelease envSkip { baseConfig with copyAllReleases := some true }).1.filter
        Event.isDownload).filterMap Event.tagOf = ["v2.0.0", "v3.0.0"] ∧
    ((copyRelease envSkip { baseConfig with copyAllReleases := some true }).1.filter
        Event.isUpload).filterMap Event.tagOf = ["v2.0.0", "v3.0.0"] ∧
    (copyRelease envSkip { baseConfig with copyAllReleases := some true }).2 = none := by
  refine ⟨?_, ?_, by decide, by decide, by decide⟩
  · intro env config t ts h
    have hre : releaseExists env t = .ok true := by simp [releaseExists, h]
    simp [processTags, hre]
  · intro env config t ts e he h404 hcopy
    have hre : releaseExists env t = .ok false := by simp [releaseExists, he, h404]
    simp [processTags, hre, hcopy]

/-- C4 witness: the skip clause applied to the concrete oracle `envSkip` at
the already-present tag `v1.0.0`, and the copy clause at the absent tag
`v2.0.0`. -/
theorem C4_skip_existing_witness :
    processTags envSkip baseConfig ["v1.0.0", "v2.0.0"]
        = (.checkedDest "v1.0.0" :: .skipped "v1.0.0"
            :: (processTags envSkip baseConfig ["v2.0.0"]).1,
           (processTags envSkip baseConfig ["v2.0.0"]).2) ∧
    processTags envSkip baseConfig ["v2.0.0"]
        = (.checkedDest "v2.0.0" :: (copySingleRelease envSkip baseConfig "v2.0.0").1
            ++ (processTags envSkip baseConfig []).1,
           (processTags envSkip baseConfig []).2) :=
  ⟨C4_skip_existing.1 envSkip baseConfig "v1.0.0" ["v2.0.0"] (by rfl),
   C4_skip_existing.2.1 envSkip baseConfig "v2.0.0" [] ⟨404, "Not Found"⟩
     (by rfl) (by decide) (by decide)⟩

theorem includedNames_eq_filter (assetFilter : Option (List String)) :
    ∀ (assets : List SourceAsset),
      includedNames assetFilter assets
          = (assets.filter (fun a => includeAsset assetFilter a.name)).map SourceAsset.name := by
  intro assets
  induction assets with
  | nil => rfl
  | cons a rest ih =>
    by_cases hig : ignoreByFilter assetFilter a.name = true
    · have hi : includeAsset assetFilter a.name = false := by simp [includeAsset, hig]
      simp [includedNames, List.filter_cons, hig, hi, ih]
    · have hig' : ignoreByFilter assetFilter a.name = false := by simpa using hig
      by_cases hn : a.name = ""
      · have hi : includeAsset assetFilter "" = false := by simp [includeAsset]
        simp [includedNames, List.filter_cons, hig', hn, hi, ih]
      · have hi : includeAsset assetFilter a.name = true := by simp [includeAsset, hig', hn]
        simp [includedNames, List.filter_cons, hig', hn, hi, ih]

theorem includedNames_skip_unnamed (assetFilter : Option (List String)) (a : SourceAsset)
    (ha : a.name = "") :
    ∀ (pre post : List SourceAsset),
      includedNames assetFilter (pre ++ a :: post) = includedNames assetFilter (pre ++ post) := by
  intro pre
  induction pre with
  | nil =>
    intro post
    have hig : ignoreByFilter assetFilter a.name = false := by
      cases assetFilter <;> simp [ignoreByFilter, ha]
    simp [includedNames, hig, ha]
  | cons b pre ih =>
    intro post
    simp only [List.cons_append, includedNames, List.append_eq, ih]

theorem includeAsset_iff (assetFilter : Option (List String)) (name : String) (hn : name ≠ "") :
    includeAsset assetFilter name = true ↔
      (assetFilter = none ∨
        ∃ fs, assetFilter = some fs ∧ fs.any (fun p => patternTest p name) = true) := by
  have hb : (name != "") = true := by simpa using hn
  cases assetFilter with
  | none => simp [includeAsset, ignoreByFilter, hb]
  | some fs => simp [includeAsset, ignoreByFilter, hb]

theorem patternTest_of_bad {p : String} (h : compile p = none) (name : String) :
    patternTest p name = false := by
  simp [patternTest, h]

/-- C5 counterexample: the claim quantifies over every asset name, but an
asset whose resolved name is empty is never included, even with the filter
undefined — the `if (!fileName)` guard skips it after the filter guard
passes.  So "included iff the filter is undefined or some pattern matches"
fails at the empty name with an undefined filter. -/
theorem C5_filter_iff_counterexample :
    includeAsset none "" = false ∧
    (downloadAssets none [⟨7, ""⟩] (some "notes")).assets = [] := by decide

/-- C5 (amended to non-empty names): for every pattern set and every
non-empty asset name, the name is included iff the filter is undefined or
some pattern in the set matches it (OR semantics, unanchored test); the
single-asset download reflects exactly this predicate; a pattern the engine
rejects tests as non-matching; and a rejected pattern anywhere in the set
never changes the inclusion decision contributed by the other patterns (and
never aborts: the test is total). -/
theorem C5_filter_or_semantics :
    (∀ (assetFilter : Option (List String)) (name : String), name ≠ "" →
      (includeAsset assetFilter name = true ↔
        (assetFilter = none ∨
          ∃ fs, assetFilter = some fs ∧ fs.any (fun p => patternTest p name) = true))) ∧
    (∀ (assetFilter : Option (List String)) (name : String) (i : Nat), name ≠ "" →
      (downloadAssets assetFilter [⟨i, name⟩] none).assets
          = if includeAsset assetFilter name then [name] else []) ∧
    (∀ (p name : String), compile p = none → patternTest p name = false) ∧
    (∀ (fs1 fs2 : List String) (p name : String), compile p = none →
      includeAsset (some (fs1 ++ p :: fs2)) name = includeAsset (some (fs1 ++ fs2)) name) := by
  refine ⟨includeAsset_iff, ?_, ?_, ?_⟩
  · intro assetFilter name i hn
    rw [show (downloadAssets assetFilter [⟨i, name⟩] none).assets
        = includedNames assetFilter [⟨i, name⟩] from rfl]
    rw [includedNames_eq_filter]
    by_cases hi : includeAsset assetFilter name = true
    · simp [List.filter_cons, hi]
    · have hi' : includeAsset assetFilter name = false := by simpa using hi
      simp [List.filter_cons, hi']
  · intro p name h
    simp [patternTest, h]
  · intro fs1 fs2 p name h
    simp [includeAsset, ignoreByFilter, List.any_append, List.any_cons, patternTest_of_bad h]

/-- C5 witness: the amended filter theorem applied at the pattern set
containing a matching pattern and a rejected pattern `(`, and the
non-suppression clause applied at the rejected pattern. -/
theorem C5_filter_or_semantics_witness :
    (includeAsset (some ["asset1", "("]) "asset1.zip" = true ↔
      (some ["asset1", "("] = none ∨
        ∃ fs, some ["asset1", "("] = some fs
          ∧ fs.any (fun p => patternTest p "asset1.zip") = true)) ∧
    includeAsset (some (["asset1"] ++ "(" :: [])) "asset1.zip"
        = includeAsset (some (["asset1"] ++ [])) "asset1.zip" :=
  ⟨C5_filter_or_semantics.1 (some ["asset1", "("]) "asset1.zip" (by decide),
   C5_filter_or_semantics.2.2.2 ["asset1"] [] "(" "asset1.zip" (by decide)⟩

/-- C7: the downloader returns a `Release` whose body is the source body
normalised to the empty string when absent, and whose assets are exactly the
included, successfully named assets in source listing order; an asset with a
missing or empty resolved name is skipped without affecting the rest of the
download. -/
theorem C7_release_shape :
    ∀ (assetFilter : Option (List String)) (assets : List SourceAsset) (body : Option String),
      (downloadAssets assetFilter assets body).body = body.getD "" ∧
      (body = none → (downloadAssets assetFilter assets body).body = "") ∧
      (downloadAssets assetFilter assets body).assets
          = (assets.filter (fun a => includeAsset assetFilter a.name)).map SourceAsset.name ∧
      (∀ (pre post : List SourceAsset) (a : SourceAsset), a.name = "" →
        downloadAssets assetFilter (pre ++ a :: post) body
            = downloadAssets assetFilter (pre ++ post) body) := by
  intro assetFilter assets body
  refine ⟨rfl, ?_, includedNames_eq_filter assetFilter assets, ?_⟩
  · intro h; subst h; rfl
  · intro pre post a ha
    simp [downloadAssets, includedNames_skip_unnamed assetFilter a ha]

/-- C7 witness: the shape theorem applied at a concrete filter, asset list
with an unnamed asset, and an absent body. -/
theorem C7_release_shape_witness :
    (downloadAssets (some ["a"]) [⟨1, "a.zip"⟩, ⟨2, ""⟩] none).body = "" ∧
    downloadAssets (some ["a"]) ([⟨1, "a.zip"⟩] ++ ⟨2, ""⟩ :: []) none
        = downloadAssets (some ["a"]) ([⟨1, "a.zip"⟩] ++ []) none :=
  ⟨(C7_release_shape (some ["a"]) [⟨1, "a.zip"⟩, ⟨2, ""⟩] none).2.1 rfl,
   (C7_release_shape (some ["a"]) ([⟨1, "a.zip"⟩] ++ ⟨2, ""⟩ :: []) none).2.2.2
     [⟨1, "a.zip"⟩] [] ⟨2, ""⟩ rfl⟩

/-- C9: an empty pattern set (as opposed to an undefined filter) includes no
asset at all: the some-pattern-matches test over the empty set is false, so
the filter guard ignores every named asset and the returned assets list is
empty — whereas the undefined filter includes every named asset. -/
theorem C9_empty_filter_excludes_all :
    ∀ (assets : List SourceAsset) (body : Option String),
      (∀ name, ignoreByFilter (some []) name = (name != "")) ∧
      (downloadAssets (some []) assets body).assets = [] ∧
      (downloadAssets none assets body).assets
          = (assets.map SourceAsset.name).filter (fun n => n != "") := by
  intro assets body
  refine ⟨fun name => by simp [ignoreByFilter], ?_, ?_⟩
  · rw [show (downloadAssets (some []) assets body).assets
        = includedNames (some []) assets from rfl]
    induction assets with
    | nil => rfl
    | cons a rest ih =>
      by_cases hn : a.name = ""
      · have hig : ignoreByFilter (some []) a.name = false := by simp [ignoreByFilter, hn]
        simp [includedNames, hig, hn, ih]
      · have hig : ignoreByFilter (some []) a.name = true := by simp [ignoreByFilter, hn]
        simp [includedNames, hig, ih]
  · rw [show (downloadAssets none assets body).assets
        = includedNames none assets from rfl]
    induction assets with
    | nil => rfl
    | cons a rest ih =>
      by_cases hn : a.name = ""
      · simp [includedNames, ignoreByFilter, hn, List.filter_cons, ih]
      · simp [includedNames, ignoreByFilter, hn, List.filter_cons, ih]

/-- C6: calling the orchestrator with both a (truthy) release tag and the
copy-all flag set fails with the configuration error, and calling it with
neither set also fails with a configuration error; in both cases the trace
is empty — no collaborator call is made. -/
theorem C6_mutual_exclusivity :
    ∀ (env : Env) (config : CopyReleaseConfig),
      (copyAllTruthy config = true → tagTruthy config = true →
        copyRelease env config
            = ([], some (.config "Cannot specify both copyAllReleases and releaseTag. Choose one or the other."))) ∧
      (copyAllTruthy config = false → tagTruthy config = false →
        copyRelease env config
            = ([], some (.config "Must specify either copyAllReleases or releaseTag."))) := by
  intro env config
  constructor
  · intro h1 h2; simp [copyRelease, h1, h2]
  · intro h1 h2; simp [copyRelease, h1, h2]

/-- C6 witness: both-set and neither-set configurations against a live
oracle, showing the empty trace and the configuration errors. -/
theorem C6_mutual_exclusivity_witness :
    copyRelease envPlain
        { baseConfig with copyAllReleases := some true, releaseTag := some "v1.0.0" }
        = ([], some (.config "Cannot specify both copyAllReleases and releaseTag. Choose one or the other.")) ∧
    copyRelease envPlain baseConfig
        = ([], some (.config "Must specify either copyAllReleases or releaseTag.")) :=
  ⟨(C6_mutual_exclusivity envPlain
      { baseConfig with copyAllReleases := some true, releaseTag := some "v1.0.0" }).1
      (by decide) (by decide),
   (C6_mutual_exclusivity envPlain baseConfig).2 (by decide) (by decide)⟩

/-- C8: a pattern (within the modelled fragment) that fails to compile makes
`processBody` return the original body unchanged, whatever the replacement
value — the failure is recovered locally, never fatal. -/
theorem C8_bad_pattern_body_unchanged :
    ∀ (body pat : String) (replacement : Option String),
      modeledPattern pat = true → compile pat = none →
      processBody body (some pat) replacement = body := by
  intro body pat replacement hm hc
  by_cases hp : pat = ""
  · subst hp; simp [processBody]
  · simp [processBody, hp, hc]

/-- C8 witness: the malformed pattern `(` with a replacement supplied leaves
the body unchanged. -/
theorem C8_bad_pattern_body_unchanged_witness :
    processBody "hello (world" (some "(") (some "X") = "hello (world" :=
  C8_bad_pattern_body_unchanged "hello (world" "(" (some "X") (by decide) (by decide)

/-- C10: an empty-string body-replace pattern is treated exactly like an
unset pattern: `copySingleRelease` behaves identically to the same
configuration with the pattern removed (the `bodyReplaceRegex?.length` guard
is falsy), and the release handed to the uploader is the downloaded release
unchanged, for every body and every replacement value. -/
theorem C10_empty_pattern_no_transform :
    ∀ (env : Env) (config : CopyReleaseConfig) (t : String),
      config.bodyReplaceRegex = some "" →
      copySingleRelease env config t
          = copySingleRelease env { config with bodyReplaceRegex := none } t ∧
      (∀ rel, env.download t = .ok rel →
        (copySingleRelease env config t).1 = [.downloadCalled t, .uploadCalled t rel]) := by
  intro env config t h
  have habt : ∀ release, applyBodyTransform config release = release := by
    intro release
    simp [applyBodyTransform, h]
  have habt2 : ∀ release,
      applyBodyTransform { config with bodyReplaceRegex := none } release = release := by
    intro release
    simp [applyBodyTransform]
  constructor
  · cases hd : env.download t with
    | error e => simp [copySingleRelease, hd]
    | ok release => simp [copySingleRelease, hd, habt, habt2]
  · intro rel hd
    cases hu : env.upload t rel with
    | error e => simp [copySingleRelease, hd, habt, hu]
    | ok u => simp [copySingleRelease, hd, habt, hu]

/-- C10 witness: the empty-pattern theorem applied to a concrete oracle,
configuration, and downloaded release. -/
theorem C10_empty_pattern_no_transform_witness :
    copySingleRelease envPlain { baseConfig with bodyReplaceRegex := some "" } "v9"
        = copySingleRelease envPlain
            { { baseConfig with bodyReplaceRegex := some "" } with bodyReplaceRegex := none } "v9" ∧
    (copySingleRelease envPlain { baseConfig with bodyReplaceRegex := some "" } "v9").1
        = [.downloadCalled "v9", .uploadCalled "v9" ⟨"body text", ["a.zip"]⟩] :=
  ⟨(C10_empty_pattern_no_transform envPlain
      { baseConfig with bodyReplaceRegex := some "" } "v9" rfl).1,
   (C10_empty_pattern_no_transform envPlain
      { baseConfig with bodyReplaceRegex := some "" } "v9" rfl).2
      ⟨"body text", ["a.zip"]⟩ rfl⟩
